import Mathlib

/-!
Verification of the k8s-controller watch manager and its HTTP serving layer.

The Go sources are shallowly embedded:
* `pkg/handlers` (CreateHandler, handleGetDeployments, handleGetDeploymentsByNamespace,
  handleGetNamespaces, handleRoot, handleNotFound, writeErrorResponse) — HTTP routing and
  responses; strings are modelled as Lean `String`, Go byte-level operations
  (`strings.Split`, `strings.TrimSpace`, `url.QueryUnescape`, `strings.HasPrefix`)
  as character-level functions on `String.data`.
* `pkg/common/utils` CheckNamespace — namespace validation against the cluster;
  the cluster client is an explicit record of the outcomes its calls produce.
* `cmd/server.go` serverCmd.Run — startup loop over the configured namespaces,
  the fatal-error exits, and the shutdown sequence, modelled as pure control flow
  over a record of the fallible startup steps' outcomes.
* `cmd/list.go` parseNamespaces — comma-splitting and whitespace-trimming.

The DeploymentInformerManager implementation (pkg/informer manager) is not among the
sources (only its callers and tests are); its interface is modelled from the spec and
the definitions concerned say so in their doc comments.
-/

set_option autoImplicit false

namespace K8sController

/-! ### Character-level models of the Go standard-library string operations -/

/-- Go `strings.Split(s, sep)` for a one-character separator, at the character level:
splitting the empty string yields `[""]`, a trailing separator yields a trailing
empty segment. -/
def splitOnChar (sep : Char) : List Char → List (List Char)
  | [] => [[]]
  | c :: rest =>
    if c = sep then [] :: splitOnChar sep rest
    else
      match splitOnChar sep rest with
      | [] => [[c]]
      | r :: rs => (c :: r) :: rs

/-- Go `strings.Split` packaged on `String`. -/
def goSplit (s : String) (sep : Char) : List String :=
  (splitOnChar sep s.data).map List.asString

/-- Go `strings.TrimSpace`: drop leading and trailing whitespace. -/
def trimSpace (s : String) : String :=
  List.asString (((s.data.dropWhile Char.isWhitespace).reverse.dropWhile
    Char.isWhitespace).reverse)

/-- Value of a hexadecimal digit, as used by Go `url.QueryUnescape`. -/
def hexVal (c : Char) : Option Nat :=
  if '0' ≤ c ∧ c ≤ '9' then some (c.toNat - '0'.toNat)
  else if 'a' ≤ c ∧ c ≤ 'f' then some (c.toNat - 'a'.toNat + 10)
  else if 'A' ≤ c ∧ c ≤ 'F' then some (c.toNat - 'A'.toNat + 10)
  else none

/-- Go `url.QueryUnescape` at the character level: `%XY` with two hex digits decodes
to the corresponding code point, `+` decodes to a space, a `%` not followed by two
hex digits is an error, every other character passes through. -/
def queryUnescapeList : List Char → Option (List Char)
  | [] => some []
  | c :: rest =>
    if c = '%' then
      match rest with
      | a :: b :: rest2 =>
        match hexVal a, hexVal b, queryUnescapeList rest2 with
        | some ha, some hb, some r => some (Char.ofNat (16 * ha + hb) :: r)
        | _, _, _ => none
      | _ => none
    else if c = '+' then (queryUnescapeList rest).map (fun r => ' ' :: r)
    else (queryUnescapeList rest).map (fun r => c :: r)

/-- Go `url.QueryUnescape` packaged on `String`. -/
def queryUnescape (s : String) : Option String :=
  (queryUnescapeList s.data).map List.asString

/-! ### The watch manager state

The DeploymentInformerManager implementation is not among the sources; the spec
describes it as a registry mapping namespace names (unique keys) to watchers whose
caches hold deployment-name snapshots. -/

/-- Modelled from the spec: the state of the missing DeploymentInformerManager —
a registry from namespace name to the deployment names in that watcher's synced
cache (spec §3 WatchRegistry / ResourceWatcher). -/
structure ManagerState where
  registry : List (String × List String)
deriving DecidableEq

/-- First-match association-list lookup in the registry. -/
def regLookup : List (String × List String) → String → Option (List String)
  | [], _ => none
  | (k, v) :: rest, ns => if k = ns then some v else regLookup rest ns

/-- Modelled from the spec: `GetAvailableNamespaces` of the missing manager —
the namespaces currently registered (spec §4.1 ListWatchedNamespaces). -/
def GetAvailableNamespaces (m : ManagerState) : List String :=
  m.registry.map Prod.fst

/-- Modelled from the spec: `HasInformer` of the missing manager — boolean
membership test in the registry (spec §4.1 HasWatch). -/
def HasInformer (m : ManagerState) (ns : String) : Bool :=
  (regLookup m.registry ns).isSome

/-- Modelled from the spec: `GetDeploymentNames` of the missing manager — the
cached snapshot's names, or an empty result if the namespace has no watcher
(spec §4.1 ListResourceNames). -/
def GetDeploymentNames (m : ManagerState) (ns : String) : List String :=
  (regLookup m.registry ns).getD []

/-- Modelled from the spec: `StartInformer` of the missing manager — idempotent:
an existing watcher makes it a no-op, otherwise a watcher is created whose cache
syncs to the cluster's deployments for the namespace (spec §4.1 StartWatch).
`cluster` gives the deployment names the initial list+watch sync observes. -/
def StartInformer (cluster : String → List String) (m : ManagerState)
    (ns : String) : ManagerState :=
  if HasInformer m ns then m else ⟨m.registry ++ [(ns, cluster ns)]⟩

/-! ### Response structures (pkg/handlers) -/

/-- Response structure for deployment endpoints (handlers.DeploymentResponse). -/
structure DeploymentResponse where
  «namespace» : String
  deployments : List String
  count : Nat
deriving DecidableEq

/-- Response structure for namespace endpoints (handlers.NamespaceResponse). -/
structure NamespaceResponse where
  namespaces : List String
  count : Nat
deriving DecidableEq

/-- Error response structure (handlers.ErrorResponse). -/
structure ErrorResponse where
  error : String
  message : String
deriving DecidableEq

/-- Response for all deployments across namespaces (handlers.DeploymentsAllResponse). -/
structure DeploymentsAllResponse where
  namespaces : List DeploymentResponse
  total_count : Nat
deriving DecidableEq

/-- Body of the root endpoint's response (the map literal in handleRoot). -/
structure RootResponse where
  message : String
  version : String
  endpoints : List (String × String)
deriving DecidableEq

/-- The JSON body written by writeJSONResponse, by shape. -/
inductive RespBody where
  | all (body : DeploymentsAllResponse)
  | single (body : DeploymentResponse)
  | nsList (body : NamespaceResponse)
  | root (body : RootResponse)
  | err (body : ErrorResponse)
deriving DecidableEq

/-- An HTTP response: status code as set by writeJSONResponse, plus the body. -/
structure Response where
  status : Nat
  body : RespBody
deriving DecidableEq

/-- HandlerManager (pkg/handlers): the informer manager plus the app version. -/
structure HandlerManager where
  informerManager : ManagerState
  appVersion : String

/-- writeErrorResponse: uniform error envelope with category "Request Error". -/
def writeErrorResponse (message : String) (statusCode : Nat) : Response :=
  ⟨statusCode, RespBody.err ⟨"Request Error", message⟩⟩

/-- handleGetDeployments: GET /deployments. With zero available namespaces, a 404
error; otherwise one DeploymentResponse per available namespace and a running
total of the per-namespace list lengths (the Go loop accumulates `responses`
and `total` left to right, which yields exactly this map and sum). -/
def handleGetDeployments (hm : HandlerManager) : Response :=
  let availableNamespaces := GetAvailableNamespaces hm.informerManager
  if availableNamespaces.length = 0 then
    writeErrorResponse "No namespaces are being watched" 404
  else
    let responses := availableNamespaces.map (fun ns =>
      let deployments := GetDeploymentNames hm.informerManager ns
      DeploymentResponse.mk ns deployments deployments.length)
    let total := (availableNamespaces.map
      (fun ns => (GetDeploymentNames hm.informerManager ns).length)).sum
    ⟨200, RespBody.all ⟨responses, total⟩⟩

/-- Tail of handleGetDeploymentsByNamespace after the namespace segment has been
percent-decoded (source lines 133-147): unwatched namespace gives 404, otherwise
the namespace's snapshot with its length. -/
def deploymentsByNamespaceDecoded (hm : HandlerManager)
    (decodedNamespace : String) : Response :=
  if !(HasInformer hm.informerManager decodedNamespace) then
    writeErrorResponse ("Namespace not being watched: " ++ decodedNamespace) 404
  else
    let deployments := GetDeploymentNames hm.informerManager decodedNamespace
    ⟨200, RespBody.single ⟨decodedNamespace, deployments, deployments.length⟩⟩

/-- handleGetDeploymentsByNamespace: GET /deployments/{namespace}. Splits the path
on "/", requires exactly three segments, percent-decodes the namespace segment,
then looks it up. -/
def handleGetDeploymentsByNamespace (hm : HandlerManager) (path : String) : Response :=
  let parts := splitOnChar '/' path.data
  if parts.length ≠ 3 then
    writeErrorResponse "Invalid path format. Use /deployments/{namespace}" 400
  else
    match queryUnescapeList (parts.getD 2 []) with
    | none => writeErrorResponse "Invalid namespace encoding" 400
    | some decoded => deploymentsByNamespaceDecoded hm (List.asString decoded)

/-- handleGetNamespaces: GET /namespaces. -/
def handleGetNamespaces (hm : HandlerManager) : Response :=
  let namespaces := GetAvailableNamespaces hm.informerManager
  ⟨200, RespBody.nsList ⟨namespaces, namespaces.length⟩⟩

/-- handleRoot: GET / returns identity metadata. -/
def handleRoot (hm : HandlerManager) : Response :=
  ⟨200, RespBody.root ⟨"Kubernetes Controller API", hm.appVersion,
    [("deployments", "/deployments"), ("namespaces", "/namespaces")]⟩⟩

/-- handleNotFound: any unmatched route. -/
def handleNotFound : Response :=
  ⟨404, RespBody.err ⟨"Not Found", "The requested endpoint does not exist"⟩⟩

/-- CreateHandler: the route switch, in source order. -/
def CreateHandler (hm : HandlerManager) (method path : String) : Response :=
  if path = "/deployments" ∧ method = "GET" then
    handleGetDeployments hm
  else if "/deployments/".data.isPrefixOf path.data ∧ method = "GET" then
    handleGetDeploymentsByNamespace hm path
  else if path = "/namespaces" ∧ method = "GET" then
    handleGetNamespaces hm
  else if path = "/" ∧ method = "GET" then
    handleRoot hm
  else
    handleNotFound

/-! ### Namespace validation (pkg/common/utils CheckNamespace) -/

/-- Go error values produced by CheckNamespace, by provenance: the Get error alone,
or the fmt.Errorf-wrapped combination of the Get error and the List error. -/
inductive GoError where
  | getFailed (msg : String)
  | getAndListFailed (getMsg listMsg : String)
deriving DecidableEq

/-- The cluster client at the interface CheckNamespace uses: the outcome of
`Namespaces().Get` per name, and the outcome of `Namespaces().List` (the names of
the cluster's namespaces on success). -/
structure ClusterClient where
  nsGet : String → Except String Unit
  nsList : Except String (List String)

/-- NamespaceCheckResult (pkg/common/utils). -/
structure NamespaceCheckResult where
  Exists : Bool
  Namespace : String
  Error : Option GoError
  AvailableNS : List String
deriving DecidableEq

/-- CheckNamespace: Get the namespace; on success, Exists is true. On failure,
record the error and List the available namespaces; if the List also fails, the
error becomes the wrapped combination and AvailableNS stays empty. -/
def CheckNamespace (clientset : ClusterClient) (ns : String) : NamespaceCheckResult :=
  match clientset.nsGet ns with
  | Except.ok _ =>
      { Exists := true, Namespace := ns, Error := none, AvailableNS := [] }
  | Except.error err =>
    match clientset.nsList with
    | Except.error listErr =>
        { Exists := false, Namespace := ns,
          Error := some (GoError.getAndListFailed err listErr), AvailableNS := [] }
    | Except.ok items =>
        { Exists := false, Namespace := ns,
          Error := some (GoError.getFailed err),
          AvailableNS := items }

/-! ### Startup and shutdown (cmd/server.go serverCmd.Run) -/

/-- Whether an Except is the ok case (Go `err == nil`). -/
def exceptOk {ε α : Type} : Except ε α → Bool
  | Except.ok _ => true
  | Except.error _ => false

/-- The informer-startup loop of serverCmd.Run (lines 126-136): for each configured
namespace, CheckNamespace; if it does not exist, skip (continue); otherwise
StartInformer. -/
def startInformersLoop (clientset : ClusterClient) (cluster : String → List String)
    (m : ManagerState) : List String → ManagerState
  | [] => m
  | ns :: rest =>
    let result := CheckNamespace clientset ns
    if result.Exists = false then
      startInformersLoop clientset cluster m rest
    else
      startInformersLoop clientset cluster (StartInformer cluster m ns) rest

/-- What caused the blocking select of serverCmd.Run to wake: an OS termination
signal, or cancellation of the shared context (as done by a failed background
task). -/
inductive ShutdownTrigger where
  | osSignal
  | contextCancelled
deriving DecidableEq

/-- How serverCmd.Run ends: `exit code` for the os.Exit calls, or the graceful
shutdown path (server.Shutdown, cancel, wg.Wait, final log, normal return — the
process then exits 0). -/
inductive RunOutcome where
  | exit (code : Nat)
  | gracefulShutdown (trigger : ShutdownTrigger)
deriving DecidableEq

/-- Outcomes of the fallible startup steps of serverCmd.Run, in program order:
getServerKubeClient, ctrlruntime.NewManager, AddDeploymentControllerWithNameAndNamespaces,
and server.ListenAndServe (an error there is a bind failure). -/
structure RunEnv where
  clientResult : Except String Unit
  managerResult : Except String Unit
  addControllerResult : Except String Unit
  listenResult : Except String Unit

/-- Control flow of serverCmd.Run in its Kubernetes-configured branch: a failed
client construction, manager construction or controller registration each reach
os.Exit(1); after those succeed, a ListenAndServe error only logs and cancels the
shared context, so the select wakes on ctx.Done and the graceful-shutdown path
runs to a normal return; with a healthy listener the select waits for an OS
signal and then runs the same path. -/
def serverRun (env : RunEnv) : RunOutcome :=
  match env.clientResult with
  | Except.error _ => RunOutcome.exit 1
  | Except.ok _ =>
    match env.managerResult with
    | Except.error _ => RunOutcome.exit 1
    | Except.ok _ =>
      match env.addControllerResult with
      | Except.error _ => RunOutcome.exit 1
      | Except.ok _ =>
        match env.listenResult with
        | Except.error _ => RunOutcome.gracefulShutdown ShutdownTrigger.contextCancelled
        | Except.ok _ => RunOutcome.gracefulShutdown ShutdownTrigger.osSignal

/-- Process exit code of a run outcome (a normal return from Run exits 0). -/
def exitCode : RunOutcome → Nat
  | RunOutcome.exit c => c
  | RunOutcome.gracefulShutdown _ => 0

/-- The background tasks serverCmd.Run starts in its Kubernetes-configured branch. -/
inductive BackgroundTask where
  | httpListener
  | controllerManager
  | watcher (ns : String)
deriving DecidableEq

/-- Which tasks the WaitGroup of serverCmd.Run tracks: the ListenAndServe goroutine
is wrapped in wg.Add(1)/wg.Done() (lines 217-225); the mgr.Start goroutine (line
191) is started bare; StartInformer is called without access to wg, so watcher
routines are not registered either. -/
def wgTracked : BackgroundTask → Bool
  | BackgroundTask.httpListener => true
  | BackgroundTask.controllerManager => false
  | BackgroundTask.watcher _ => false

/-- The steps of the graceful-shutdown tail of serverCmd.Run. -/
inductive ShutdownStep where
  | stopListener
  | cancelSharedContext
  | waitForTracked
  | exitLogLine
deriving DecidableEq

/-- The graceful-shutdown tail in source order (lines 240-252): server.Shutdown(),
cancel(), wg.Wait(), then the final "Graceful shutdown completed" log. -/
def shutdownSequence : List ShutdownStep :=
  [ShutdownStep.stopListener, ShutdownStep.cancelSharedContext,
   ShutdownStep.waitForTracked, ShutdownStep.exitLogLine]

/-! ### Configured-namespace parsing -/

/-- parseNamespaces (cmd/list.go): empty input defaults to ["default"]; otherwise
split on commas and trim whitespace from each entry. -/
def parseNamespaces (namespaceString : String) : List String :=
  if namespaceString = "" then ["default"]
  else (goSplit namespaceString ',').map trimSpace

/-- The namespacesToWatch derivation inlined in serverCmd.Run (lines 68-86):
the --namespace flag takes precedence, then the configured value, each
comma-split and entry-trimmed; otherwise the ["default"] fallback. -/
def serverNamespacesToWatch (serverNamespaceFlag configNamespace : String) : List String :=
  if serverNamespaceFlag ≠ "" then (goSplit serverNamespaceFlag ',').map trimSpace
  else if configNamespace ≠ "" then (goSplit configNamespace ',').map trimSpace
  else ["default"]

/-! ### Helpers for stating the claims -/

/-- A namespace name with none of the characters the URL path layer treats
specially (no separator, no percent escape, no plus). Real Kubernetes namespace
names (RFC 1123 labels) always satisfy this. -/
def plainSegment (ns : String) : Bool :=
  ns.data.all (fun c => c != '/' && c != '%' && c != '+')

/-- A string with no leading and no trailing whitespace. -/
def isTrimmed (s : String) : Bool :=
  (s.data.head?.all (fun c => !c.isWhitespace)) &&
  (s.data.getLast?.all (fun c => !c.isWhitespace))

/-- The `count`-like field of a response body (`total_count` of the aggregate
body, `count` of the others, 0 for bodies that carry none). -/
def respCount (r : Response) : Nat :=
  match r.body with
  | RespBody.all b => b.total_count
  | RespBody.single b => b.count
  | RespBody.nsList b => b.count
  | RespBody.root _ => 0
  | RespBody.err _ => 0

/-! ### Supporting lemmas -/

theorem data_asString (l : List Char) : (List.asString l).data = l :=
  List.toList_asString l

theorem splitOnChar_noSep (sep : Char) :
    ∀ (l : List Char), (∀ c ∈ l, c ≠ sep) → splitOnChar sep l = [l]
  | [], _ => rfl
  | c :: rest, h => by
    have hc : c ≠ sep := h c (List.mem_cons_self c rest)
    have ih := splitOnChar_noSep sep rest (fun x hx => h x (List.mem_cons_of_mem c hx))
    simp [splitOnChar, hc, ih]

theorem splitOnChar_append_sep (sep : Char) :
    ∀ (l r : List Char), (∀ c ∈ l, c ≠ sep) →
      splitOnChar sep (l ++ sep :: r) = l :: splitOnChar sep r
  | [], r, _ => by simp [splitOnChar]
  | c :: rest, r, h => by
    have hc : c ≠ sep := h c (List.mem_cons_self c rest)
    have ih := splitOnChar_append_sep sep rest r
      (fun x hx => h x (List.mem_cons_of_mem c hx))
    simp [splitOnChar, hc, ih]

theorem queryUnescapeList_plain :
    ∀ (l : List Char), (∀ c ∈ l, c ≠ '%' ∧ c ≠ '+') → queryUnescapeList l = some l
  | [], _ => rfl
  | c :: rest, h => by
    have hc := h c (List.mem_cons_self c rest)
    have ih := queryUnescapeList_plain rest (fun x hx => h x (List.mem_cons_of_mem c hx))
    unfold queryUnescapeList
    simp [hc.1, hc.2, ih]

theorem regLookup_isSome_iff :
    ∀ (l : List (String × List String)) (ns : String),
      (regLookup l ns).isSome = true ↔ ns ∈ l.map Prod.fst
  | [], ns => by simp [regLookup]
  | (k, v) :: rest, ns => by
    by_cases h : k = ns
    · subst h; simp [regLookup]
    · simp [regLookup, h, regLookup_isSome_iff rest ns, Ne.symm h]

theorem regLookup_append_of_none (l₁ l₂ : List (String × List String)) (ns : String)
    (h : regLookup l₁ ns = none) : regLookup (l₁ ++ l₂) ns = regLookup l₂ ns := by
  induction l₁ with
  | nil => rfl
  | cons p rest ih =>
    obtain ⟨k, v⟩ := p
    by_cases hk : k = ns
    · simp [regLookup, hk] at h
    · simp only [regLookup, hk, if_false, List.cons_append] at h ⊢
      exact ih h

theorem regLookup_append_some {l₁ : List (String × List String)}
    (l₂ : List (String × List String)) {ns : String} {v : List String}
    (h : regLookup l₁ ns = some v) : regLookup (l₁ ++ l₂) ns = some v := by
  induction l₁ with
  | nil => simp [regLookup] at h
  | cons p rest ih =>
    obtain ⟨k, w⟩ := p
    by_cases hk : k = ns
    · simp only [regLookup, hk, if_pos rfl] at h ⊢
      simpa using h
    · simp only [regLookup, if_neg hk, List.cons_append] at h ⊢
      exact ih h

theorem HasInformer_StartInformer_self (cluster : String → List String)
    (m : ManagerState) (ns : String) :
    HasInformer (StartInformer cluster m ns) ns = true := by
  by_cases h : HasInformer m ns
  · simp [StartInformer, h]
  · have hn : regLookup m.registry ns = none := by
      cases hr : regLookup m.registry ns with
      | none => rfl
      | some v => exact absurd (by simp [HasInformer, hr]) h
    simp [StartInformer, HasInformer, hn, regLookup_append_of_none _ _ _ hn, regLookup]

theorem StartInformer_of_has (cluster : String → List String)
    (m : ManagerState) (ns : String) (h : HasInformer m ns = true) :
    StartInformer cluster m ns = m := by
  simp [StartInformer, h]

theorem HasInformer_StartInformer_of_ne (cluster : String → List String)
    (m : ManagerState) (ns ns' : String) (h : ns ≠ ns') :
    HasInformer (StartInformer cluster m ns') ns = HasInformer m ns := by
  by_cases h' : HasInformer m ns'
  · simp [StartInformer, h']
  · simp only [StartInformer, h', Bool.false_eq_true, if_false]
    cases hr : regLookup m.registry ns with
    | some v =>
      simp [HasInformer, regLookup_append_some _ hr, hr]
    | none =>
      simp [HasInformer, regLookup_append_of_none _ _ _ hr, regLookup, Ne.symm h, hr]

theorem HasInformer_StartInformer_mono (cluster : String → List String)
    (m : ManagerState) (ns ns' : String) (h : HasInformer m ns = true) :
    HasInformer (StartInformer cluster m ns') ns = true := by
  by_cases he : ns = ns'
  · subst he; exact HasInformer_StartInformer_self cluster m ns
  · rw [HasInformer_StartInformer_of_ne cluster m ns ns' he]; exact h

theorem CheckNamespace_Exists (clientset : ClusterClient) (ns : String) :
    (CheckNamespace clientset ns).Exists = exceptOk (clientset.nsGet ns) := by
  unfold CheckNamespace exceptOk
  cases clientset.nsGet ns with
  | ok _ => rfl
  | error e =>
    cases clientset.nsList with
    | ok items => rfl
    | error le => rfl

theorem startInformersLoop_mono (clientset : ClusterClient)
    (cluster : String → List String) :
    ∀ (l : List String) (m : ManagerState) (ns : String),
      HasInformer m ns = true →
      HasInformer (startInformersLoop clientset cluster m l) ns = true
  | [], _, _, h => h
  | ns₀ :: rest, m, ns, h => by
    unfold startInformersLoop
    by_cases he : (CheckNamespace clientset ns₀).Exists = false
    · rw [if_pos he]
      exact startInformersLoop_mono clientset cluster rest m ns h
    · rw [if_neg he]
      exact startInformersLoop_mono clientset cluster rest _ ns
        (HasInformer_StartInformer_mono cluster m ns ns₀ h)

theorem startInformersLoop_skips (clientset : ClusterClient)
    (cluster : String → List String) :
    ∀ (l : List String) (m : ManagerState) (ns : String),
      exceptOk (clientset.nsGet ns) = false →
      HasInformer m ns = false →
      HasInformer (startInformersLoop clientset cluster m l) ns = false
  | [], _, _, _, h => h
  | ns₀ :: rest, m, ns, hg, h => by
    unfold startInformersLoop
    by_cases he : (CheckNamespace clientset ns₀).Exists = false
    · rw [if_pos he]
      exact startInformersLoop_skips clientset cluster rest m ns hg h
    · rw [if_neg he]
      have hne : ns ≠ ns₀ := by
        intro hEq
        subst hEq
        rw [CheckNamespace_Exists, hg] at he
        exact he rfl
      have h' : HasInformer (StartInformer cluster m ns₀) ns = false := by
        rw [HasInformer_StartInformer_of_ne cluster m ns ns₀ hne]
        exact h
      exact startInformersLoop_skips clientset cluster rest _ ns hg h'

theorem startInformersLoop_starts (clientset : ClusterClient)
    (cluster : String → List String) :
    ∀ (l : List String) (m : ManagerState) (ns : String), ns ∈ l →
      exceptOk (clientset.nsGet ns) = true →
      HasInformer (startInformersLoop clientset cluster m l) ns = true
  | [], _, _, hmem, _ => absurd hmem (List.not_mem_nil _)
  | ns₀ :: rest, m, ns, hmem, hg => by
    unfold startInformersLoop
    rcases List.mem_cons.mp hmem with hEq | hmem'
    · subst hEq
      have he : ¬ (CheckNamespace clientset ns).Exists = false := by
        rw [CheckNamespace_Exists, hg]
        simp
      rw [if_neg he]
      exact startInformersLoop_mono clientset cluster rest _ ns
        (HasInformer_StartInformer_self cluster m ns)
    · by_cases he : (CheckNamespace clientset ns₀).Exists = false
      · rw [if_pos he]
        exact startInformersLoop_starts clientset cluster rest m ns hmem' hg
      · rw [if_neg he]
        exact startInformersLoop_starts clientset cluster rest _ ns hmem' hg

theorem keys_StartInformer_nodup (cluster : String → List String)
    (m : ManagerState) (ns : String)
    (h : (GetAvailableNamespaces m).Nodup) :
    (GetAvailableNamespaces (StartInformer cluster m ns)).Nodup := by
  by_cases hh : HasInformer m ns = true
  · rw [StartInformer_of_has cluster m ns hh]
    exact h
  · have hns : ¬ ns ∈ m.registry.map Prod.fst := by
      intro hmem
      exact hh ((regLookup_isSome_iff m.registry ns).mpr hmem)
    simp only [StartInformer, hh, Bool.false_eq_true, if_false]
    simp only [GetAvailableNamespaces, List.map_append, List.map_cons, List.map_nil]
    rw [List.nodup_append]
    refine ⟨h, List.nodup_singleton ns, ?_⟩
    intro x hx hx'
    rw [List.mem_singleton.mp hx'] at hx
    exact hns hx

theorem startInformersLoop_nodup (clientset : ClusterClient)
    (cluster : String → List String) :
    ∀ (l : List String) (m : ManagerState),
      (GetAvailableNamespaces m).Nodup →
      (GetAvailableNamespaces (startInformersLoop clientset cluster m l)).Nodup
  | [], _, h => h
  | ns₀ :: rest, m, h => by
    unfold startInformersLoop
    by_cases he : (CheckNamespace clientset ns₀).Exists = false
    · rw [if_pos he]
      exact startInformersLoop_nodup clientset cluster rest m h
    · rw [if_neg he]
      exact startInformersLoop_nodup clientset cluster rest _
        (keys_StartInformer_nodup cluster m ns₀ h)

theorem all_not_head_dropWhile (p : Char → Bool) (l : List Char) :
    ((l.dropWhile p).head?.all fun c => !p c) = true := by
  cases h : (l.dropWhile p).head? with
  | none => rfl
  | some c =>
    have hnp := List.head?_dropWhile_not p l
    rw [h] at hnp
    simp [hnp]

theorem getLast_dropWhile_of_ne_nil (p : Char → Bool) (l : List Char)
    (h : l.dropWhile p ≠ []) : (l.dropWhile p).getLast? = l.getLast? := by
  obtain ⟨pre, hpre⟩ := List.dropWhile_suffix (l := l) p
  conv_rhs => rw [← hpre]
  rw [List.getLast?_append]
  cases hl : (l.dropWhile p).getLast? with
  | none => exact absurd (List.getLast?_eq_none_iff.mp hl) h
  | some x => rfl

theorem trimSpace_isTrimmed (s : String) : isTrimmed (trimSpace s) = true := by
  unfold isTrimmed trimSpace
  rw [data_asString, List.head?_reverse, List.getLast?_reverse]
  rw [Bool.and_eq_true]
  refine ⟨?_, ?_⟩
  · by_cases hv :
      ((s.data.dropWhile Char.isWhitespace).reverse.dropWhile Char.isWhitespace) = []
    · rw [hv]
      rfl
    · rw [getLast_dropWhile_of_ne_nil _ _ hv, List.getLast?_reverse]
      exact all_not_head_dropWhile _ _
  · exact all_not_head_dropWhile _ _

theorem parseNamespaces_entry_trimmed (s x : String) (h : x ∈ parseNamespaces s) :
    isTrimmed x = true := by
  unfold parseNamespaces at h
  by_cases hs : s = ""
  · rw [if_pos hs] at h
    have : x = "default" := by simpa using h
    subst this
    decide
  · rw [if_neg hs] at h
    obtain ⟨y, _, hy⟩ := List.mem_map.mp h
    rw [← hy]
    exact trimSpace_isTrimmed y

theorem notWatched_msg_ne_invalidPath (d : String) :
    "Namespace not being watched: " ++ d ≠
      "Invalid path format. Use /deployments/{namespace}" := by
  intro hEq
  have hd := congrArg String.data hEq
  rw [String.data_append] at hd
  have hh := congrArg List.head? hd
  rw [List.head?_append] at hh
  have e1 : ("Namespace not being watched: ").data.head? = some 'N' := by decide
  have e2 :
      ("Invalid path format. Use /deployments/{namespace}").data.head? = some 'I' := by
    decide
  rw [e1, e2] at hh
  simp at hh

theorem plainSegment_props (ns : String) (h : plainSegment ns = true) :
    (∀ c ∈ ns.data, c ≠ '/') ∧ (∀ c ∈ ns.data, c ≠ '%' ∧ c ≠ '+') := by
  unfold plainSegment at h
  rw [List.all_eq_true] at h
  constructor
  · intro c hc
    have hx := h c hc
    simp only [Bool.and_eq_true, bne_iff_ne] at hx
    exact hx.1.1
  · intro c hc
    have hx := h c hc
    simp only [Bool.and_eq_true, bne_iff_ne] at hx
    exact ⟨hx.1.2, hx.2⟩

theorem splitOnChar_cons_sep (sep : Char) (rest : List Char) :
    splitOnChar sep (sep :: rest) = [] :: splitOnChar sep rest := by
  conv_lhs => rw [splitOnChar]
  rw [if_pos rfl]

theorem splitOnChar_deployments_path (ns : String) (h : ∀ c ∈ ns.data, c ≠ '/') :
    splitOnChar '/' ("/deployments/" ++ ns).data =
      [[], "deployments".data, ns.data] := by
  rw [String.data_append]
  have hdata : ("/deployments/").data = '/' :: ("deployments".data ++ ['/']) := by
    decide
  rw [hdata]
  have hassoc : ('/' :: ("deployments".data ++ ['/'])) ++ ns.data
      = '/' :: ("deployments".data ++ ('/' :: ns.data)) := by
    simp
  rw [hassoc]
  have hdep : ∀ c ∈ ("deployments").data, c ≠ '/' := by decide
  rw [splitOnChar_cons_sep]
  rw [splitOnChar_append_sep '/' _ _ hdep, splitOnChar_noSep '/' _ h]

theorem createHandler_plain_namespace (hm : HandlerManager) (ns : String)
    (hplain : plainSegment ns = true) :
    CreateHandler hm "GET" ("/deployments/" ++ ns) =
      deploymentsByNamespaceDecoded hm ns := by
  obtain ⟨hslash, hesc⟩ := plainSegment_props ns hplain
  have hne : ("/deployments/" ++ ns) ≠ "/deployments" := by
    intro hEq
    have hd := congrArg String.data hEq
    rw [String.data_append] at hd
    have hlen := congrArg List.length hd
    rw [List.length_append] at hlen
    have l1 : ("/deployments/").data.length = 13 := by decide
    have l2 : ("/deployments").data.length = 12 := by decide
    rw [l1, l2] at hlen
    omega
  have hpre : ("/deployments/").data.isPrefixOf ("/deployments/" ++ ns).data = true := by
    rw [String.data_append]
    exact List.isPrefixOf_iff_prefix.mpr (List.prefix_append _ _)
  unfold CreateHandler
  rw [if_neg (fun hand => hne hand.1), if_pos ⟨hpre, rfl⟩]
  unfold handleGetDeploymentsByNamespace
  rw [splitOnChar_deployments_path ns hslash]
  rw [if_neg (by simp)]
  have hq : queryUnescapeList ([[], ("deployments").data, ns.data].getD 2 [])
      = some ns.data := by
    exact queryUnescapeList_plain ns.data hesc
  rw [hq]
  have ha : List.asString ns.data = ns := String.asString_toList ns
  show deploymentsByNamespaceDecoded hm (List.asString ns.data)
      = deploymentsByNamespaceDecoded hm ns
  rw [ha]

/-! ### Claims -/

/-- C1: aggregation law — a 200 response to GET /deployments has total_count equal
to the sum of the count fields of its per-namespace entries, each per-namespace
count equals the length of that namespace's deployments list, and total_count
equals the sum of the counts GET /deployments/{ns} returns for each watched
namespace ns (for URL-plain namespace names). -/
theorem deployments_aggregation_law (hm : HandlerManager)
    (hne : GetAvailableNamespaces hm.informerManager ≠ [])
    (hplain : ∀ ns ∈ GetAvailableNamespaces hm.informerManager, plainSegment ns = true) :
    ∃ body : DeploymentsAllResponse,
      handleGetDeployments hm = ⟨200, RespBody.all body⟩ ∧
      body.total_count = (body.namespaces.map DeploymentResponse.count).sum ∧
      (∀ r ∈ body.namespaces, r.count = r.deployments.length) ∧
      body.total_count = ((GetAvailableNamespaces hm.informerManager).map
        (fun ns => respCount (CreateHandler hm "GET" ("/deployments/" ++ ns)))).sum := by
  have hlen : ¬ (GetAvailableNamespaces hm.informerManager).length = 0 := by
    simpa [List.length_eq_zero] using hne
  refine ⟨⟨(GetAvailableNamespaces hm.informerManager).map (fun ns =>
      DeploymentResponse.mk ns (GetDeploymentNames hm.informerManager ns)
        (GetDeploymentNames hm.informerManager ns).length),
    ((GetAvailableNamespaces hm.informerManager).map
      (fun ns => (GetDeploymentNames hm.informerManager ns).length)).sum⟩,
    ?_, ?_, ?_, ?_⟩
  · simp [handleGetDeployments, hlen]
  · rw [List.map_map]
    rfl
  · intro r hr
    obtain ⟨ns, _, hmk⟩ := List.mem_map.mp hr
    rw [← hmk]
  · refine congrArg List.sum (List.map_congr_left fun ns hns => ?_)
    have hhas : HasInformer hm.informerManager ns = true :=
      (regLookup_isSome_iff _ ns).mpr hns
    rw [createHandler_plain_namespace hm ns (hplain ns hns)]
    simp [deploymentsByNamespaceDecoded, hhas, respCount]

/-- Witness for C1 at a concrete two-namespace manager state. -/
theorem deployments_aggregation_law_witness :
    ∃ body : DeploymentsAllResponse,
      handleGetDeployments ⟨⟨[("ns1", ["d1", "d2"]), ("ns2", ["d3"])]⟩, "v"⟩
        = ⟨200, RespBody.all body⟩ ∧
      body.total_count = (body.namespaces.map DeploymentResponse.count).sum ∧
      (∀ r ∈ body.namespaces, r.count = r.deployments.length) ∧
      body.total_count =
        ((GetAvailableNamespaces (⟨[("ns1", ["d1", "d2"]), ("ns2", ["d3"])]⟩ :
            ManagerState)).map
          (fun ns => respCount
            (CreateHandler ⟨⟨[("ns1", ["d1", "d2"]), ("ns2", ["d3"])]⟩, "v"⟩ "GET"
              ("/deployments/" ++ ns)))).sum :=
  deployments_aggregation_law ⟨⟨[("ns1", ["d1", "d2"]), ("ns2", ["d3"])]⟩, "v"⟩
    (by decide) (by decide)

/-- C2: with zero watched namespaces GET /deployments is a 404 whose message is
"No namespaces are being watched"; with at least one it is a 200 success body. -/
theorem deployments_empty_404 (hm : HandlerManager) :
    (GetAvailableNamespaces hm.informerManager = [] →
      handleGetDeployments hm =
        ⟨404, RespBody.err ⟨"Request Error", "No namespaces are being watched"⟩⟩) ∧
    (GetAvailableNamespaces hm.informerManager ≠ [] →
      (handleGetDeployments hm).status = 200 ∧
      ∃ body, handleGetDeployments hm = ⟨200, RespBody.all body⟩) := by
  constructor
  · intro h
    simp [handleGetDeployments, h, writeErrorResponse]
  · intro h
    have hlen : ¬ (GetAvailableNamespaces hm.informerManager).length = 0 := by
      simpa [List.length_eq_zero] using h
    refine ⟨?_, ?_⟩
    · simp [handleGetDeployments, hlen]
    · refine ⟨⟨(GetAvailableNamespaces hm.informerManager).map (fun ns =>
          DeploymentResponse.mk ns (GetDeploymentNames hm.informerManager ns)
            (GetDeploymentNames hm.informerManager ns).length),
        ((GetAvailableNamespaces hm.informerManager).map
          (fun ns => (GetDeploymentNames hm.informerManager ns).length)).sum⟩, ?_⟩
      simp [handleGetDeployments, hlen]

/-- Witness for C2 at the empty manager state. -/
theorem deployments_empty_404_witness :
    handleGetDeployments ⟨⟨[]⟩, "dev"⟩ =
      ⟨404, RespBody.err ⟨"Request Error", "No namespaces are being watched"⟩⟩ :=
  (deployments_empty_404 ⟨⟨[]⟩, "dev"⟩).1 rfl

/-- C3: on GET under /deployments/, a path that does not split into exactly three
segments is a 400 "Invalid path format" error (in particular /deployments/a/b);
otherwise the namespace segment is percent-decoded before lookup and an unwatched
decoded namespace is a 404 whose message differs from the malformed-path one. -/
theorem by_namespace_path_handling (hm : HandlerManager) (path : String)
    (hpre : ("/deployments/").data.isPrefixOf path.data = true) :
    ((splitOnChar '/' path.data).length ≠ 3 →
      CreateHandler hm "GET" path =
        writeErrorResponse "Invalid path format. Use /deployments/{namespace}" 400) ∧
    (∀ seg dec, splitOnChar '/' path.data = [[], ("deployments").data, seg] →
      queryUnescapeList seg = some dec →
      HasInformer hm.informerManager (List.asString dec) = false →
      CreateHandler hm "GET" path =
        writeErrorResponse ("Namespace not being watched: " ++ List.asString dec) 404 ∧
      "Namespace not being watched: " ++ List.asString dec ≠
        "Invalid path format. Use /deployments/{namespace}") ∧
    CreateHandler hm "GET" "/deployments/a/b" =
      writeErrorResponse "Invalid path format. Use /deployments/{namespace}" 400 := by
  have hroute : CreateHandler hm "GET" path = handleGetDeploymentsByNamespace hm path := by
    have hne : path ≠ "/deployments" := by
      intro hEq
      subst hEq
      exact absurd hpre (by decide)
    unfold CreateHandler
    rw [if_neg (fun hand => hne hand.1), if_pos ⟨hpre, rfl⟩]
  refine ⟨?_, ?_, ?_⟩
  · intro h
    rw [hroute]
    unfold handleGetDeploymentsByNamespace
    rw [if_pos h]
  · intro seg dec hsplit hdec hhas
    constructor
    · rw [hroute]
      unfold handleGetDeploymentsByNamespace
      rw [hsplit]
      rw [if_neg (by simp)]
      have hq : queryUnescapeList ([[], ("deployments").data, seg].getD 2 [])
          = some dec := hdec
      rw [hq]
      show deploymentsByNamespaceDecoded hm (List.asString dec) = _
      simp [deploymentsByNamespaceDecoded, hhas]
    · exact notWatched_msg_ne_invalidPath _
  · have hne3 : ("/deployments/a/b" : String) ≠ "/deployments" := by decide
    unfold CreateHandler
    rw [if_neg (fun hand => hne3 hand.1), if_pos ⟨by decide, rfl⟩]
    unfold handleGetDeploymentsByNamespace
    rw [if_pos (by decide)]

/-- Witness for C3: an unwatched plain namespace under a watching manager. -/
theorem by_namespace_path_handling_witness :
    CreateHandler ⟨⟨[("default", [])]⟩, "v"⟩ "GET" "/deployments/ghost" =
      writeErrorResponse ("Namespace not being watched: " ++
        List.asString ("ghost").data) 404 :=
  ((by_namespace_path_handling ⟨⟨[("default", [])]⟩, "v"⟩ "/deployments/ghost"
      (by decide)).2.1
    ("ghost").data ("ghost").data (by decide) (by decide) (by decide)).1

/-- C4: StartInformer is idempotent — the duplicate call is a no-op, the namespace
count is unchanged, and a fresh namespace ends up with exactly one registry entry
after the two calls. -/
theorem startInformer_idempotent (cluster : String → List String)
    (m : ManagerState) (ns : String) :
    StartInformer cluster (StartInformer cluster m ns) ns = StartInformer cluster m ns ∧
    (GetAvailableNamespaces
        (StartInformer cluster (StartInformer cluster m ns) ns)).length
      = (GetAvailableNamespaces (StartInformer cluster m ns)).length ∧
    (HasInformer m ns = false →
      (GetAvailableNamespaces
          (StartInformer cluster (StartInformer cluster m ns) ns)).count ns
        = (GetAvailableNamespaces m).count ns + 1) := by
  have hidem : StartInformer cluster (StartInformer cluster m ns) ns
      = StartInformer cluster m ns :=
    StartInformer_of_has cluster _ ns (HasInformer_StartInformer_self cluster m ns)
  refine ⟨hidem, by rw [hidem], ?_⟩
  intro hfalse
  rw [hidem]
  simp [StartInformer, hfalse, GetAvailableNamespaces, List.count_append]

/-- Witness for C4 at the empty manager state. -/
theorem startInformer_idempotent_witness :
    (GetAvailableNamespaces (StartInformer (fun _ => ["a"])
        (StartInformer (fun _ => ["a"]) ⟨[]⟩ "default") "default")).count "default"
      = (GetAvailableNamespaces (⟨[]⟩ : ManagerState)).count "default" + 1 :=
  (startInformer_idempotent (fun _ => ["a"]) ⟨[]⟩ "default").2.2 (by decide)

/-- C5: startup is fail-soft per namespace — a namespace whose existence check
fails is skipped (never started), while every configured namespace whose check
succeeds is started regardless of the failures around it. -/
theorem startup_failsoft (clientset : ClusterClient) (cluster : String → List String)
    (m : ManagerState) (l : List String) :
    (∀ ns, exceptOk (clientset.nsGet ns) = false → HasInformer m ns = false →
      HasInformer (startInformersLoop clientset cluster m l) ns = false) ∧
    (∀ ns ∈ l, exceptOk (clientset.nsGet ns) = true →
      HasInformer (startInformersLoop clientset cluster m l) ns = true) :=
  ⟨fun ns hg h => startInformersLoop_skips clientset cluster l m ns hg h,
   fun ns hmem hg => startInformersLoop_starts clientset cluster l m ns hmem hg⟩

/-- Witness for C5: one nonexistent namespace is skipped and the next one still
starts. -/
theorem startup_failsoft_witness :
    HasInformer (startInformersLoop
      ⟨fun ns => if ns = "ghost" then Except.error "namespace not found"
        else Except.ok (), Except.ok ["default", "real"]⟩
      (fun _ => []) ⟨[]⟩ ["ghost", "real"]) "ghost" = false ∧
    HasInformer (startInformersLoop
      ⟨fun ns => if ns = "ghost" then Except.error "namespace not found"
        else Except.ok (), Except.ok ["default", "real"]⟩
      (fun _ => []) ⟨[]⟩ ["ghost", "real"]) "real" = true :=
  ⟨(startup_failsoft _ _ _ _).1 "ghost" (by decide) (by decide),
   (startup_failsoft _ _ _ _).2 "real" (by decide) (by decide)⟩

/-- C6 counterexample: a listener bind failure does not produce a non-zero exit —
it cancels the shared context and the run ends in the graceful-shutdown path with
exit code 0; moreover, a controller-runtime manager construction failure is a
fatal os.Exit(1) beyond the two failures the claim allows. -/
theorem fatal_startup_counterexample :
    exitCode (serverRun ⟨Except.ok (), Except.ok (), Except.ok (),
      Except.error "listen tcp :8080: bind: address already in use"⟩) = 0 ∧
    serverRun ⟨Except.ok (), Except.error "manager construction failed",
      Except.ok (), Except.ok ()⟩ = RunOutcome.exit 1 :=
  ⟨rfl, rfl⟩

/-- C6 amended: client construction, controller-runtime manager construction and
controller registration failures each terminate with exit code 1; after those
succeed the run always ends with exit code 0, and a listener bind failure merely
switches the shutdown trigger to context cancellation. -/
theorem fatal_startup_exits_amended (env : RunEnv) :
    (exceptOk env.clientResult = false → serverRun env = RunOutcome.exit 1) ∧
    (exceptOk env.clientResult = true → exceptOk env.managerResult = false →
      serverRun env = RunOutcome.exit 1) ∧
    (exceptOk env.clientResult = true → exceptOk env.managerResult = true →
      exceptOk env.addControllerResult = false → serverRun env = RunOutcome.exit 1) ∧
    (exceptOk env.clientResult = true → exceptOk env.managerResult = true →
      exceptOk env.addControllerResult = true →
      exitCode (serverRun env) = 0 ∧
      (exceptOk env.listenResult = false →
        serverRun env = RunOutcome.gracefulShutdown ShutdownTrigger.contextCancelled)) := by
  obtain ⟨cr, mr, ar, lr⟩ := env
  cases cr <;> cases mr <;> cases ar <;> cases lr <;>
    simp [serverRun, exceptOk, exitCode]

/-- Witness for the amended C6: with all acquisitions succeeding and the listener
failing to bind, the process still exits 0. -/
theorem fatal_startup_exits_amended_witness :
    exitCode (serverRun ⟨Except.ok (), Except.ok (), Except.ok (),
      Except.error "bind failure"⟩) = 0 :=
  ((fatal_startup_exits_amended ⟨Except.ok (), Except.ok (), Except.ok (),
      Except.error "bind failure"⟩).2.2.2 rfl rfl rfl).1

/-- C7 counterexample: the namespace list derived from "a,a" hands "a" to the
watch manager twice — duplicates are not collapsed. -/
theorem parseNamespaces_duplicates_counterexample :
    parseNamespaces "a,a" = ["a", "a"] ∧
    (parseNamespaces "a,a").count "a" = 2 ∧
    serverNamespacesToWatch "a,a" "" = ["a", "a"] := by
  decide

/-- C7 amended: every derived entry is whitespace-trimmed, but duplicates are not
collapsed in the list handed to the manager; the registry's keys nevertheless stay
unique because the startup loop inserts through the idempotent StartInformer. -/
theorem parseNamespaces_trim_amended :
    (∀ s x, x ∈ parseNamespaces s → isTrimmed x = true) ∧
    (∀ flag cfg x, x ∈ serverNamespacesToWatch flag cfg → isTrimmed x = true) ∧
    (∀ (clientset : ClusterClient) (cluster : String → List String)
        (l : List String) (m : ManagerState),
      (GetAvailableNamespaces m).Nodup →
      (GetAvailableNamespaces (startInformersLoop clientset cluster m l)).Nodup) := by
  refine ⟨parseNamespaces_entry_trimmed, ?_, ?_⟩
  · intro flag cfg x h
    unfold serverNamespacesToWatch at h
    by_cases h1 : flag ≠ ""
    · rw [if_pos h1] at h
      obtain ⟨y, _, hy⟩ := List.mem_map.mp h
      rw [← hy]
      exact trimSpace_isTrimmed y
    · rw [if_neg h1] at h
      by_cases h2 : cfg ≠ ""
      · rw [if_pos h2] at h
        obtain ⟨y, _, hy⟩ := List.mem_map.mp h
        rw [← hy]
        exact trimSpace_isTrimmed y
      · rw [if_neg h2] at h
        have hx : x = "default" := by simpa using h
        subst hx
        decide
  · intro clientset cluster l m h
    exact startInformersLoop_nodup clientset cluster l m h

/-- Witness for the amended C7 on a whitespace-laden input. -/
theorem parseNamespaces_trim_amended_witness : isTrimmed "a" = true :=
  (parseNamespaces_trim_amended).1 " a , b " "a" (by decide)

/-- C8 counterexample: the WaitGroup wg tracks only the HTTP listener goroutine, so
the shutdown wait does not cover the controller-manager goroutine or the watcher
routines — they are cancelled but not awaited before the exit log. -/
theorem shutdown_tracking_counterexample :
    wgTracked BackgroundTask.controllerManager = false ∧
    wgTracked (BackgroundTask.watcher "default") = false ∧
    wgTracked BackgroundTask.httpListener = true := by
  decide

/-- C8 amended: on shutdown the listener is stopped first, then the shared context
is cancelled, then the process waits — but only for WaitGroup-tracked goroutines
— before the final exit log; only the listener goroutine is tracked, while the
controller-manager and watcher tasks are signalled by cancellation, not awaited. -/
theorem shutdown_sequence_amended :
    shutdownSequence.indexOf ShutdownStep.stopListener <
      shutdownSequence.indexOf ShutdownStep.cancelSharedContext ∧
    shutdownSequence.indexOf ShutdownStep.cancelSharedContext <
      shutdownSequence.indexOf ShutdownStep.waitForTracked ∧
    shutdownSequence.indexOf ShutdownStep.waitForTracked <
      shutdownSequence.indexOf ShutdownStep.exitLogLine ∧
    wgTracked BackgroundTask.httpListener = true ∧
    (∀ ns, wgTracked (BackgroundTask.watcher ns) = false) ∧
    wgTracked BackgroundTask.controllerManager = false :=
  ⟨by decide, by decide, by decide, rfl, fun _ => rfl, rfl⟩

/-- C9: CheckNamespace postcondition — the result carries the queried name, Exists
holds exactly when the Get succeeds, a failed Get always leaves a non-nil Error,
and a successful subsequent List makes AvailableNS contain every cluster
namespace name. -/
theorem checkNamespace_postcondition (clientset : ClusterClient) (n : String) :
    (CheckNamespace clientset n).Namespace = n ∧
    ((CheckNamespace clientset n).Exists = true ↔ exceptOk (clientset.nsGet n) = true) ∧
    (∀ e, clientset.nsGet n = Except.error e → (CheckNamespace clientset n).Error ≠ none) ∧
    (∀ e items, clientset.nsGet n = Except.error e → clientset.nsList = Except.ok items →
      ∀ x ∈ items, x ∈ (CheckNamespace clientset n).AvailableNS) := by
  refine ⟨?_, ?_, ?_, ?_⟩
  · unfold CheckNamespace
    cases clientset.nsGet n with
    | ok _ => rfl
    | error e =>
      cases clientset.nsList with
      | ok _ => rfl
      | error _ => rfl
  · rw [CheckNamespace_Exists]
  · intro e he
    unfold CheckNamespace
    rw [he]
    cases clientset.nsList with
    | ok _ => simp
    | error _ => simp
  · intro e items he hl x hx
    unfold CheckNamespace
    rw [he, hl]
    simpa using hx

/-- Witness for C9: a failed Get with a successful List. -/
theorem checkNamespace_postcondition_witness :
    "kube-system" ∈ (CheckNamespace
      ⟨fun _ => Except.error "not found", Except.ok ["default", "kube-system"]⟩
      "ghost").AvailableNS :=
  (checkNamespace_postcondition
      ⟨fun _ => Except.error "not found", Except.ok ["default", "kube-system"]⟩
      "ghost").2.2.2 "not found" ["default", "kube-system"] rfl rfl
    "kube-system" (by decide)

/-- C10: GET /deployments/ (empty namespace segment) passes the three-segment
check and is answered by the by-namespace handler: when the empty string is not a
watched namespace the result is 404 "Namespace not being watched: ", not the 400
malformed-path error. -/
theorem trailing_slash_not_watched (hm : HandlerManager)
    (h : HasInformer hm.informerManager "" = false) :
    CreateHandler hm "GET" "/deployments/" =
      writeErrorResponse "Namespace not being watched: " 404 := by
  have hne : ("/deployments/" : String) ≠ "/deployments" := by decide
  unfold CreateHandler
  rw [if_neg (fun hand => hne hand.1), if_pos ⟨by decide, rfl⟩]
  unfold handleGetDeploymentsByNamespace
  have hsplit : splitOnChar '/' ("/deployments/").data
      = [[], ("deployments").data, []] := by decide
  rw [hsplit]
  rw [if_neg (by simp)]
  have hq : queryUnescapeList ([[], ("deployments").data, []].getD 2 [])
      = some [] := by decide
  rw [hq]
  show deploymentsByNamespaceDecoded hm (List.asString []) = _
  have ha : List.asString ([] : List Char) = "" := by decide
  rw [ha]
  simp [deploymentsByNamespaceDecoded, h, writeErrorResponse]

/-- Witness for C10 at a manager watching only "default". -/
theorem trailing_slash_not_watched_witness :
    CreateHandler ⟨⟨[("default", ["x"])]⟩, "v"⟩ "GET" "/deployments/" =
      writeErrorResponse "Namespace not being watched: " 404 :=
  trailing_slash_not_watched ⟨⟨[("default", ["x"])]⟩, "v"⟩ (by decide)

end K8sController
